import Mathlib

/-!
Verification of the watermark-remover image pipeline: a shallow embedding of
the image normalizer (dimension computation, multi-step resize, MIME
validation and encoding fallback), the inference worker's message handler,
the worker-client adapter's one-shot listener, and the batch controller
(per-job recovery, progress accounting, job-list operations), together with
theorems settling the specification's claims about them.
-/

/-- JavaScript `Math.round (num / den)` on nonnegative rationals: rounds half
up.  Used wherever the source computes `Math.round` of a ratio. -/
def natRound (num den : Nat) : Nat := (2 * num + den) / (2 * den)

/-- `sub.isPrefixList l`: the character list `sub` is an initial segment of
`l`.  Helper for the JavaScript `String.includes` embedding. -/
def isPrefixList : List Char → List Char → Bool
  | [], _ => true
  | _ :: _, [] => false
  | a :: as, b :: bs => a = b && isPrefixList as bs

/-- `containsSub sub l`: `sub` occurs as a contiguous sublist of `l`. -/
def containsSub (sub : List Char) : List Char → Bool
  | [] => isPrefixList sub []
  | c :: t => isPrefixList sub (c :: t) || containsSub sub t

/-- JavaScript `s.includes(sub)`: substring containment on strings. -/
def strIncludes (s sub : String) : Bool := containsSub sub.data s.data

/-! ## Constants (src/src/utils/constants.ts, IMAGE_CONFIG; App.tsx MAX_FILES;
worker MODEL_CONFIG) -/

/-- `App.tsx`: `const MAX_FILES = 50`. -/
def MAX_FILES : Nat := 50

/-- `constants.ts`: `IMAGE_CONFIG.WEBGL_MAX_DIMENSION = 8192`. -/
def WEBGL_MAX_DIMENSION : Nat := 8192

/-- `constants.ts`: `IMAGE_CONFIG.MAX_DIMENSION = 4096`. -/
def IMAGE_MAX_DIMENSION : Nat := 4096

/-- `constants.ts`: `IMAGE_CONFIG.MIN_DIMENSION = 32`. -/
def IMAGE_MIN_DIMENSION : Nat := 32

/-- `constants.ts`: `IMAGE_CONFIG.SUPPORTED_TYPES`. -/
def SUPPORTED_TYPES : List String := ["image/jpeg", "image/png", "image/webp"]

/-! ## Image normalizer: dimension computation (imageUtils,
`calculateOptimalDimensions`) -/

/-- `calculateOptimalDimensions(width, height, maxDimension)` from the final
imageUtils: picks the branch on `width > height`, rescales only when the
larger dimension exceeds `maxDimension` (rounding the other dimension from
the aspect ratio with `Math.round`), and then unconditionally floors both
dimensions to even numbers (`Math.floor(x / 2) * 2`). -/
def calculateOptimalDimensions (width height maxDimension : Nat) : Nat × Nat :=
  let wh :=
    if height < width then
      if maxDimension < width then
        (maxDimension, natRound (maxDimension * height) width)
      else (width, height)
    else
      if maxDimension < height then
        (natRound (maxDimension * width) height, maxDimension)
      else (width, height)
  (wh.1 / 2 * 2, wh.2 / 2 * 2)

/-- `resizeImageWithSteps(img, targetWidth, targetHeight)` from the final
imageUtils, abstracted to the sequence of canvas dimensions it draws through:
it always creates an intermediate canvas of size
`(min(img.width, targetWidth*2), min(img.height, targetHeight*2))` and then a
final canvas of the target size.  The returned list is that sequence of
stage dimensions, ending with the final output dimensions. -/
def resizeImageWithSteps (srcW srcH tgtW tgtH : Nat) : List (Nat × Nat) :=
  [(min srcW (tgtW * 2), min srcH (tgtH * 2)), (tgtW, tgtH)]

/-! ## Image normalizer: MIME validation and encoding fallback (imageUtils,
`validateImageType` and `imageDataToDataURL`) -/

/-- `validateImageType(type)` from the final imageUtils: throws on an empty
type and on a type outside `SUPPORTED_TYPES`; the embedding returns the
thrown message in `Except.error`. -/
def validateImageType (t : String) : Except String Unit :=
  if t = "" then
    Except.error "Invalid image type: type must be a non-empty string"
  else if SUPPORTED_TYPES.contains t then Except.ok ()
  else
    Except.error ("Unsupported image type: " ++ t ++
      ". Supported types are: image/jpeg, image/png, image/webp")

/-- The MIME-type selection performed by `imageDataToDataURL(imageData, type,
quality)` in the final imageUtils: `type` may be absent (`none`) or the empty
string, in which case `safeType` defaults to PNG; then `validateImageType` is
tried and on failure the function falls back to encoding as PNG instead of
rethrowing.  The embedding returns the MIME type actually passed to
`canvas.toDataURL`; the `Except` layer mirrors the function's exception
behaviour at its public interface (it never propagates a MIME error). -/
def imageDataToDataURL (t : Option String) : Except String String :=
  let safeType := match t with
    | none => "image/png"
    | some s => if s = "" then "image/png" else s
  match validateImageType safeType with
  | Except.ok _ => Except.ok safeType
  | Except.error _ => Except.ok "image/png"

/-! ## Inference worker (src/src/watermarkRemover.worker.ts) -/

/-- `ImageData`: width, height and the flat RGBA byte sequence. -/
structure ImageDataM where
  width : Nat
  height : Nat
  data : List Nat
deriving DecidableEq, Repr

/-- Worker-global state: `let model: LayersModel | null = null` — the single
mutable module variable of the worker.  The handle itself is opaque. -/
structure WorkerState where
  model : Option Unit
deriving DecidableEq, Repr

/-- A message posted back by the worker (`self.postMessage`). -/
inductive WorkerReply where
  | modelLoaded (success : Bool) (errorMessage : Option String)
  | processingComplete (id : String) (success : Bool)
      (processedImageData : Option ImageDataM) (errorMessage : Option String)
deriving DecidableEq, Repr

/-- The worker's `validateImageDimensions` with `MODEL_CONFIG.MIN_DIMENSION =
32` and `MODEL_CONFIG.MAX_DIMENSION = 4096`; throwing becomes
`Except.error` of the thrown message. -/
def validateImageDimensionsWorker (width height : Nat) : Except String Unit :=
  if width < 32 ∨ height < 32 then
    Except.error "Image dimensions must be at least 32x32 pixels"
  else if 4096 < width ∨ 4096 < height then
    Except.error "Image dimensions must not exceed 4096x4096 pixels"
  else Except.ok ()

/-- The worker's `PROCESS_IMAGE` message-handler case.  `engine` stands for
the model-inference pipeline inside `processImage` (tensor conversion,
predict, clipping, conversion back), which either yields a result image or
fails with a message.  Returns the new worker state, the list of messages
posted back, and the number of inference runs performed during the call. -/
def handleProcessImage (engine : ImageDataM → Except String ImageDataM)
    (st : WorkerState) (id : String) (imageData : ImageDataM) :
    WorkerState × List WorkerReply × Nat :=
  match st.model with
  | none =>
      (st, [WorkerReply.processingComplete id false none (some "Model not loaded")], 0)
  | some _ =>
      match validateImageDimensionsWorker imageData.width imageData.height with
      | Except.error e =>
          (st, [WorkerReply.processingComplete id false none (some e)], 0)
      | Except.ok _ =>
          match engine imageData with
          | Except.ok out =>
              (st, [WorkerReply.processingComplete id true (some out) none], 1)
          | Except.error e =>
              (st, [WorkerReply.processingComplete id false none (some e)], 1)

/-! ## Worker client adapter (useWatermarkRemover hook): the per-call
one-shot listener registered by `processImage` -/

/-- The `WorkerMessage` shape seen by the hook's `messageHandler`. -/
structure WorkerMessageM where
  mtype : String
  success : Bool
  id : Option String
  errorMessage : Option String
deriving DecidableEq, Repr

/-- State of one `processImage` call's listener: whether the handler is still
attached to the worker, and how many times `onComplete` has been invoked. -/
structure ListenerState where
  registered : Bool
  completions : Nat
deriving DecidableEq, Repr

/-- The match condition of the hook's `messageHandler`:
`type === 'PROCESSING_COMPLETE' && id === resultId`. -/
def matchesMsg (callId : String) (m : WorkerMessageM) : Bool :=
  m.mtype = "PROCESSING_COMPLETE" && m.id = some callId

/-- Delivery of one worker message to the per-call listener: if the handler
is still registered and the message matches, it invokes `onComplete` once and
removes itself (`worker.removeEventListener`); otherwise nothing changes. -/
def deliver (callId : String) (st : ListenerState) (m : WorkerMessageM) :
    ListenerState :=
  if st.registered && matchesMsg callId m then
    { registered := false, completions := st.completions + 1 }
  else st

/-- Delivery of a whole stream of worker messages to a freshly registered
per-call listener (the state right after `worker.addEventListener`). -/
def deliverAll (callId : String) (msgs : List WorkerMessageM) : ListenerState :=
  msgs.foldl (deliver callId) ⟨true, 0⟩

/-! ## Batch controller (App.tsx, `processImages`) -/

/-- Per-job status (`ImageStatus` in App.tsx), with the recorded error
message folded into the `error` constructor. -/
inductive JobStatus where
  | idle
  | processing
  | done
  | error (msg : String)
deriving DecidableEq, Repr

/-- The environment's behaviour for one job: `attempt1` is the outcome of the
first normalize-and-infer pass (`none` = success, `some msg` = it threw or
completed with `msg`), and `attempt2` the outcome of the recovery pass were
it to run. -/
structure JobSpec where
  attempt1 : Option String
  attempt2 : Option String
deriving DecidableEq, Repr

/-- The settings of one normalize-and-infer attempt: the `maxDimension`
passed to `fileToImageData` (defaulting to `WEBGL_MAX_DIMENSION / 2` when
absent), the model-quality string passed to `processImage`, and the
re-encode quality passed to `imageDataToDataURL` (percent). -/
structure Attempt where
  maxDim : Nat
  modelQuality : String
  encodeQuality : Nat
deriving DecidableEq, Repr

/-- The first pass in `processImages`: `fileToImageData(image.file)` (default
ceiling `WEBGL_MAX_DIMENSION / 2`), `quality: 'high'`, re-encode at 1.0. -/
def standardAttempt : Attempt := ⟨WEBGL_MAX_DIMENSION / 2, "high", 100⟩

/-- The recovery pass in `processImages`: `fileToImageData(image.file,
{quality: 0.7, maxDimension: IMAGE_CONFIG.WEBGL_MAX_DIMENSION / 4})`,
`quality: 'medium'`, re-encode at 0.9. -/
def recoveryAttempt : Attempt := ⟨WEBGL_MAX_DIMENSION / 4, "medium", 90⟩

/-- The capacity heuristic in `processImages`: `errorMessage.includes('texture
size') || errorMessage.includes('WebGL') || errorMessage.includes('memory')`. -/
def isCapacityError (msg : String) : Bool :=
  strIncludes msg "texture size" || strIncludes msg "WebGL" ||
    strIncludes msg "memory"

/-- One iteration of the `processImages` loop for a single job: the final
status the job is left in and the attempts performed.  A first-pass failure
whose message satisfies the capacity heuristic triggers exactly one recovery
pass; a recovery failure is wrapped as `Failed to process large image: ...`
by the recovery `catch`; a non-capacity failure is recorded as-is by the
outer per-job `catch`. -/
def processJob (j : JobSpec) : JobStatus × List Attempt :=
  match j.attempt1 with
  | none => (JobStatus.done, [standardAttempt])
  | some m =>
      if isCapacityError m then
        match j.attempt2 with
        | none => (JobStatus.done, [standardAttempt, recoveryAttempt])
        | some m2 =>
            (JobStatus.error ("Failed to process large image: " ++ m2),
             [standardAttempt, recoveryAttempt])
      else (JobStatus.error m, [standardAttempt])

/-- The `processImages` loop over the snapshot of idle jobs, carrying the
`processed` counter: returns the final statuses in order and the sequence of
`setProgress` values emitted after jobs.  `processed++` and
`setProgress(Math.round((processed / N) * 100))` run only when the inner
try-block completes without throwing, i.e. only after a successful (direct
or recovered) job; the per-job `catch` records the error and continues. -/
def runBatchAux (N : Nat) : List JobSpec → Nat → List JobStatus × List Nat
  | [], _ => ([], [])
  | j :: rest, processed =>
      let st := (processJob j).1
      if st = JobStatus.done then
        let r := runBatchAux N rest (processed + 1)
        (st :: r.1, natRound ((processed + 1) * 100) N :: r.2)
      else
        let r := runBatchAux N rest processed
        (st :: r.1, r.2)

/-- A whole batch run over the snapshot of idle jobs (`N` = snapshot size,
counter starting at 0). -/
def runBatch (jobs : List JobSpec) : List JobStatus × List Nat :=
  runBatchAux jobs.length jobs 0

/-- Number of jobs of a snapshot that end `done` under `processJob`. -/
def doneCount (jobs : List JobSpec) : Nat :=
  (jobs.filter (fun j => (processJob j).1 = JobStatus.done)).length

/-! ## App image list (App.tsx: `onDrop`, `removeImage`) -/

/-- The fields of a dropped `File` the list logic looks at. -/
structure FileM where
  name : String
  ftype : String
deriving DecidableEq, Repr

/-- An `ImageFile` entry of the App's image list. -/
structure ImageFileM where
  id : String
  file : FileM
  preview : String
  processed : Option String
  status : JobStatus
deriving DecidableEq, Repr

/-- The `acceptedFiles.map` body of `onDrop`: validates each file's MIME type
(`validateImageType(file.type)` throwing aborts the whole map) and builds the
new entries; `newId i` stands for the `crypto.randomUUID()` drawn for the
`i`-th file and `blob:` + name for `URL.createObjectURL(file)`. -/
def mkImageEntries (newId : Nat → String) :
    List FileM → Nat → Except String (List ImageFileM)
  | [], _ => Except.ok []
  | f :: rest, i =>
      match validateImageType f.ftype with
      | Except.error e => Except.error e
      | Except.ok _ =>
          match mkImageEntries newId rest (i + 1) with
          | Except.error e => Except.error e
          | Except.ok l =>
              let entry : ImageFileM :=
                { id := newId i, file := f, preview := "blob:" ++ f.name,
                  processed := none, status := JobStatus.idle }
              Except.ok (entry :: l)

/-- `onDrop(acceptedFiles, rejectedFiles)`: reports an error and leaves the
list untouched when any file was rejected, when the total would exceed
`MAX_FILES`, or when some accepted file fails `validateImageType`; otherwise
appends all the new entries at once.  Returns the new list and the error
message set (if any). -/
def onDrop (newId : Nat → String) (images : List ImageFileM)
    (accepted : List FileM) (rejected : List String) :
    List ImageFileM × Option String :=
  if 0 < rejected.length then (images, some "Some files were rejected")
  else if MAX_FILES < images.length + accepted.length then
    (images, some "Maximum 50 images allowed")
  else
    match mkImageEntries newId accepted 0 with
    | Except.ok newImages => (images ++ newImages, none)
    | Except.error _ => (images, some "Error adding images")

/-- `removeImage(id)`: finds the entry with the given id, revokes its
preview object URL and (when present) its processed object URL, and filters
the entry out of the list.  Returns the new list and the revoked URLs. -/
def removeImage (images : List ImageFileM) (targetId : String) :
    List ImageFileM × List String :=
  let revoked :=
    match images.find? (fun img => img.id = targetId) with
    | none => []
    | some img =>
        img.preview :: (match img.processed with | some p => [p] | none => [])
  (images.filter (fun img => img.id ≠ targetId), revoked)

/-! ## Helper lemmas -/

lemma natRound_le_of_le (num den B : Nat) (hden : 0 < den) (h : num ≤ B * den) :
    natRound num den ≤ B := by
  unfold natRound
  apply Nat.lt_succ_iff.mp
  rw [Nat.div_lt_iff_lt_mul (by omega : 0 < 2 * den)]
  calc 2 * num + den ≤ 2 * (B * den) + den := by omega
    _ < (B + 1) * (2 * den) := by ring_nf; omega

lemma natRound_mono (a b den : Nat) (h : a ≤ b) : natRound a den ≤ natRound b den :=
  Nat.div_le_div_right (by omega)

lemma evenFloor_le_evenFloor (a b : Nat) (h : a ≤ b) : a / 2 * 2 ≤ b / 2 * 2 :=
  Nat.mul_le_mul_right 2 (Nat.div_le_div_right h)

lemma calc_dims_of_fit (W H M : Nat) (h : max W H ≤ M) :
    calculateOptimalDimensions W H M = (W / 2 * 2, H / 2 * 2) := by
  have hW : W ≤ M := le_trans (le_max_left _ _) h
  have hH : H ≤ M := le_trans (le_max_right _ _) h
  by_cases hlt : H < W
  · simp [calculateOptimalDimensions, hlt, Nat.not_lt.mpr hW]
  · simp [calculateOptimalDimensions, hlt, Nat.not_lt.mpr hH]

lemma calc_dims_of_wide (W H M : Nat) (h1 : H < W) (h2 : M < W) :
    calculateOptimalDimensions W H M =
      (M / 2 * 2, natRound (M * H) W / 2 * 2) := by
  simp [calculateOptimalDimensions, h1, h2]

lemma calc_dims_of_tall (W H M : Nat) (h1 : W ≤ H) (h2 : M < H) :
    calculateOptimalDimensions W H M =
      (natRound (M * W) H / 2 * 2, M / 2 * 2) := by
  simp [calculateOptimalDimensions, Nat.not_lt.mpr h1, h2]

/-! ## C1: the resize policy of the dimension computation -/

/-- C1 (counterexample): the claim "if `max(W,H) <= M` no resize occurs
(output dimensions equal `W,H`)" fails on the code: the even-flooring is
applied unconditionally, so a 33x33 source with ceiling 100 comes out 32x32
even though no rescale is needed. -/
theorem c1_claim_counterexample :
    max 33 33 ≤ 100 ∧ calculateOptimalDimensions 33 33 100 ≠ (33, 33) := by
  decide

/-- C1 (amended): given source `(W,H)` and ceiling `M`, the dimension
computation never rescales when `max(W,H) ≤ M` but still floors both
dimensions to even numbers (so the output equals `(W,H)` only when both are
even); when `M < max(W,H)` the larger output dimension is the even-floor of
`M`, the other is the even-floor of the `Math.round`-scaled aspect-preserving
value, and both outputs are even. -/
theorem c1_resize_policy (W H M : Nat) (hW : 0 < W) (hH : 0 < H) :
    (max W H ≤ M →
      calculateOptimalDimensions W H M = (W / 2 * 2, H / 2 * 2)) ∧
    (M < max W H →
      (calculateOptimalDimensions W H M).1 % 2 = 0 ∧
      (calculateOptimalDimensions W H M).2 % 2 = 0 ∧
      max (calculateOptimalDimensions W H M).1
          (calculateOptimalDimensions W H M).2 = M / 2 * 2 ∧
      (H < W → calculateOptimalDimensions W H M =
        (M / 2 * 2, natRound (M * H) W / 2 * 2)) ∧
      (W ≤ H → calculateOptimalDimensions W H M =
        (natRound (M * W) H / 2 * 2, M / 2 * 2))) := by
  constructor
  · exact calc_dims_of_fit W H M
  · intro hM
    by_cases hlt : H < W
    · have h2 : M < W := by
        have := Nat.max_eq_left (le_of_lt hlt)
        omega
      rw [calc_dims_of_wide W H M hlt h2]
      have hr : natRound (M * H) W ≤ M :=
        natRound_le_of_le _ _ _ hW (Nat.mul_le_mul_left M (le_of_lt hlt))
      refine ⟨Nat.mul_mod_left _ _, Nat.mul_mod_left _ _, ?_, ?_, ?_⟩
      · exact Nat.max_eq_left (evenFloor_le_evenFloor _ _ hr)
      · intro _; rfl
      · intro hle; omega
    · have hle : W ≤ H := Nat.not_lt.mp hlt
      have h2 : M < H := by
        have := Nat.max_eq_right hle
        omega
      rw [calc_dims_of_tall W H M hle h2]
      have hr : natRound (M * W) H ≤ M :=
        natRound_le_of_le _ _ _ hH (Nat.mul_le_mul_left M hle)
      refine ⟨Nat.mul_mod_left _ _, Nat.mul_mod_left _ _, ?_, ?_, ?_⟩
      · exact Nat.max_eq_right (evenFloor_le_evenFloor _ _ hr)
      · intro hlt'; omega
      · intro _; rfl

/-- C1 witness: the amended policy evaluated at the concrete source 7x3 with
ceiling 4: the width is capped at 4 and the height rounds to 2. -/
theorem c1_resize_policy_witness :
    calculateOptimalDimensions 7 3 4 = (4 / 2 * 2, natRound (4 * 3) 7 / 2 * 2) :=
  ((c1_resize_policy 7 3 4 (by decide) (by decide)).2 (by decide)).2.2.2.1
    (by decide)

/-! ## C7: the multi-step resize -/

/-- C7 (counterexample): the claim fails on the final normalizer's
`resizeImageWithSteps`: for a 1000x1000 source and 100x100 target (smaller
than half the source) the intermediate stage is 200x200, not the half-size
500x500; and for a 100x100 source and 60x60 target (larger than half) the
code still draws through two stages rather than one direct resize. -/
theorem c7_claim_counterexample :
    (resizeImageWithSteps 1000 1000 100 100).head? ≠ some (1000 / 2, 1000 / 2) ∧
    (resizeImageWithSteps 100 100 60 60).length ≠ 1 := by
  decide

/-- C7 (amended): `resizeImageWithSteps` always resizes in exactly two
stages ending at the target size; the intermediate stage has dimensions
`(min(srcW, 2*tgtW), min(srcH, 2*tgtH))` — in particular twice the target
(not the half-size of the source) when the target is at most half the
source, and the source size itself (a plain copy) otherwise. -/
theorem c7_resize_stages (sW sH tW tH : Nat) :
    (resizeImageWithSteps sW sH tW tH).length = 2 ∧
    (resizeImageWithSteps sW sH tW tH).getLast? = some (tW, tH) ∧
    (resizeImageWithSteps sW sH tW tH).head? =
      some (min sW (tW * 2), min sH (tH * 2)) ∧
    (tW * 2 ≤ sW → tH * 2 ≤ sH →
      (resizeImageWithSteps sW sH tW tH).head? = some (tW * 2, tH * 2)) ∧
    (sW ≤ tW * 2 → sH ≤ tH * 2 →
      (resizeImageWithSteps sW sH tW tH).head? = some (sW, sH)) := by
  refine ⟨rfl, rfl, rfl, ?_, ?_⟩
  · intro h1 h2
    simp [resizeImageWithSteps, Nat.min_eq_right h1, Nat.min_eq_right h2]
  · intro h1 h2
    simp [resizeImageWithSteps, Nat.min_eq_left h1, Nat.min_eq_left h2]

/-- C7 witness: the two-stage shape evaluated at the concrete 1000x1000
source with 100x100 target: the intermediate stage is 200x200. -/
theorem c7_resize_stages_witness :
    (resizeImageWithSteps 1000 1000 100 100).head? = some (100 * 2, 100 * 2) :=
  (c7_resize_stages 1000 1000 100 100).2.2.2.1 (by decide) (by decide)

/-! ## Batch lemmas -/

lemma runBatchAux_statuses (N : Nat) (jobs : List JobSpec) (p : Nat) :
    (runBatchAux N jobs p).1 = jobs.map (fun j => (processJob j).1) := by
  induction jobs generalizing p with
  | nil => rfl
  | cons j rest ih =>
      by_cases h : (processJob j).1 = JobStatus.done
      · simp [runBatchAux, h, ih]
      · simp [runBatchAux, h, ih]

lemma doneCount_cons_done (j : JobSpec) (rest : List JobSpec)
    (h : (processJob j).1 = JobStatus.done) :
    doneCount (j :: rest) = doneCount rest + 1 := by
  simp [doneCount, List.filter_cons, h]

lemma doneCount_cons_not_done (j : JobSpec) (rest : List JobSpec)
    (h : ¬(processJob j).1 = JobStatus.done) :
    doneCount (j :: rest) = doneCount rest := by
  simp [doneCount, List.filter_cons, h]

lemma runBatchAux_emitted (N : Nat) (jobs : List JobSpec) (p : Nat) :
    (runBatchAux N jobs p).2 =
      (List.range (doneCount jobs)).map
        (fun k => natRound ((p + k + 1) * 100) N) := by
  induction jobs generalizing p with
  | nil => simp [runBatchAux, doneCount]
  | cons j rest ih =>
      by_cases h : (processJob j).1 = JobStatus.done
      · have hs : (runBatchAux N (j :: rest) p).2 =
            natRound ((p + 1) * 100) N :: (runBatchAux N rest (p + 1)).2 := by
          simp [runBatchAux, h]
        rw [hs, doneCount_cons_done j rest h, List.range_succ_eq_map,
          List.map_cons, List.map_map]
        congr 1
        rw [ih (p + 1)]
        refine List.map_congr_left ?_
        intro k _
        simp only [Function.comp_apply]
        exact congrArg (fun x => natRound (x * 100) N) (by omega)
      · have hs : (runBatchAux N (j :: rest) p).2 = (runBatchAux N rest p).2 := by
          simp [runBatchAux, h]
        rw [hs, doneCount_cons_not_done j rest h]
        exact ih p

lemma getLast?_map_list {α β : Type} (f : α → β) (l : List α) :
    (l.map f).getLast? = l.getLast?.map f := by
  induction l with
  | nil => rfl
  | cons a t ih =>
      cases t with
      | nil => rfl
      | cons b t' => simpa using ih

lemma getLast?_range_succ (n : Nat) : (List.range (n + 1)).getLast? = some n := by
  rw [List.range_succ]
  exact List.getLast?_concat _

lemma natRound_hundred (n : Nat) (h : 0 < n) : natRound (n * 100) n = 100 := by
  unfold natRound
  rw [show 2 * (n * 100) + n = n + (2 * n) * 100 by ring,
    Nat.add_mul_div_left _ _ (by omega : 0 < 2 * n),
    Nat.div_eq_of_lt (by omega)]

/-! ## C2: progress accounting -/

/-- C2 (counterexample): the claim that progress advances after *every* job
— including one ending in `Error` — fails on the code: for a single-job
batch whose job fails with a non-capacity error, `processed++` and
`setProgress` are skipped (they sit after the inner try-block), so no
progress value is emitted at all, rather than the claimed `round(1/1*100) =
100`. -/
theorem c2_claim_counterexample :
    (runBatch [⟨some "boom", none⟩]).1 = [JobStatus.error "boom"] ∧
    (runBatch [⟨some "boom", none⟩]).2 = [] ∧
    (runBatch [⟨some "boom", none⟩]).2 ≠ [natRound (1 * 100) 1] := by
  refine ⟨rfl, rfl, by decide⟩

/-- C2 (amended): in a batch run over `N` snapshot-selected idle jobs the
controller advances `completedCount` and emits `round(completedCount/N*100)`
only after jobs that resolve successfully (directly or via recovery); jobs
ending in `Error` emit no progress update.  The emitted sequence is exactly
`round(k*100/N)` for `k = 1..S` where `S` counts the successful jobs, it is
monotonically non-decreasing, and it ends at 100 when every job succeeds. -/
theorem c2_progress_accounting (jobs : List JobSpec) :
    (runBatch jobs).2 =
      (List.range (doneCount jobs)).map
        (fun k => natRound ((k + 1) * 100) jobs.length) ∧
    (runBatch jobs).2.Pairwise (· ≤ ·) ∧
    (doneCount jobs = jobs.length → jobs ≠ [] →
      (runBatch jobs).2.getLast? = some 100) := by
  have hrun : (runBatch jobs).2 =
      (List.range (doneCount jobs)).map
        (fun k => natRound ((k + 1) * 100) jobs.length) := by
    rw [runBatch, runBatchAux_emitted]
    refine List.map_congr_left ?_
    intro k _
    simp
  refine ⟨hrun, ?_, ?_⟩
  · rw [hrun, List.pairwise_map]
    exact (List.pairwise_lt_range _).imp
      (fun hab => natRound_mono _ _ _ (by omega))
  · intro hall hne
    obtain ⟨n, hn⟩ : ∃ n, jobs.length = n + 1 := by
      cases jobs with
      | nil => exact absurd rfl hne
      | cons a t => exact ⟨t.length, rfl⟩
    rw [hrun, hall, hn, getLast?_map_list, getLast?_range_succ]
    simp only [Option.map_some']
    rw [natRound_hundred _ (by omega)]

/-- C2 witness: a 3-job batch in which every job succeeds emits a progress
sequence ending at 100. -/
theorem c2_progress_accounting_witness :
    (runBatch [⟨none, none⟩, ⟨none, none⟩, ⟨none, none⟩]).2.getLast? =
      some 100 :=
  (c2_progress_accounting [⟨none, none⟩, ⟨none, none⟩, ⟨none, none⟩]).2.2
    (by decide) (by decide)

/-! ## C3: capacity-error recovery -/

/-- C3: when a job's first pass fails with a message matching the capacity
heuristic (texture size / WebGL / memory), the controller performs exactly
one recovery pass — re-normalizing at `WEBGL_MAX_DIMENSION / 4` (a quarter of
the standard ceiling, below the standard pass's `WEBGL_MAX_DIMENSION / 2`)
with the reduced `medium` model quality — and the job ends `done` if the
recovery succeeds and `error` (with the wrapped failure description) if it
fails; a non-capacity failure triggers no recovery and ends `error` with the
original message. -/
theorem c3_capacity_recovery (j : JobSpec) (m : String)
    (h : j.attempt1 = some m) :
    (isCapacityError m = true →
      (processJob j).2 = [standardAttempt, recoveryAttempt] ∧
      recoveryAttempt.maxDim = WEBGL_MAX_DIMENSION / 4 ∧
      recoveryAttempt.maxDim < standardAttempt.maxDim ∧
      recoveryAttempt.modelQuality = "medium" ∧
      (j.attempt2 = none → (processJob j).1 = JobStatus.done) ∧
      (∀ m2, j.attempt2 = some m2 →
        (processJob j).1 =
          JobStatus.error ("Failed to process large image: " ++ m2))) ∧
    (isCapacityError m = false →
      (processJob j).2 = [standardAttempt] ∧
      (processJob j).1 = JobStatus.error m) := by
  rcases j with ⟨a1, a2⟩
  dsimp only at h
  subst h
  constructor
  · intro hc
    cases a2 with
    | none =>
        simp [processJob, hc, standardAttempt, recoveryAttempt,
          WEBGL_MAX_DIMENSION]
    | some m2 =>
        simp [processJob, hc, standardAttempt, recoveryAttempt,
          WEBGL_MAX_DIMENSION]
  · intro hc
    simp [processJob, hc]

/-- C3 witness: a capacity-style first failure followed by a failing
recovery ends in `error` with the wrapped description, after exactly the
standard and the recovery attempt. -/
theorem c3_capacity_recovery_witness :
    (processJob ⟨some "WebGL texture failure", some "still failing"⟩).1 =
      JobStatus.error ("Failed to process large image: " ++ "still failing") ∧
    (processJob ⟨some "WebGL texture failure", some "still failing"⟩).2 =
      [standardAttempt, recoveryAttempt] := by
  have h := c3_capacity_recovery ⟨some "WebGL texture failure", some "still failing"⟩
    "WebGL texture failure" rfl
  have hc := h.1 (by decide)
  exact ⟨hc.2.2.2.2.2 "still failing" rfl, hc.1⟩

/-! ## C4: errors never abort the run -/

/-- C4: an error in one job never aborts the batch run — the final status
list is the pointwise image of each job's own outcome, independent of the
other jobs; in particular a 3-job batch whose second job fails ends with
statuses `[done, error, done]`. -/
theorem c4_errors_do_not_abort (jobs : List JobSpec) :
    (runBatch jobs).1 = jobs.map (fun j => (processJob j).1) ∧
    (runBatch [⟨none, none⟩, ⟨some "boom", none⟩, ⟨none, none⟩]).1 =
      [JobStatus.done, JobStatus.error "boom", JobStatus.done] := by
  exact ⟨runBatchAux_statuses _ _ _, by decide⟩

/-! ## C5: processing while the model is not loaded -/

/-- C5: a `ProcessImage` message handled while the worker's model is not
loaded immediately posts `ProcessingComplete` with `success:false`, the same
id and the message `Model not loaded`, leaving the state unchanged and
running no inference. -/
theorem c5_not_loaded_fails_fast (engine : ImageDataM → Except String ImageDataM)
    (st : WorkerState) (id : String) (img : ImageDataM)
    (h : st.model = none) :
    handleProcessImage engine st id img =
      (st, [WorkerReply.processingComplete id false none
        (some "Model not loaded")], 0) := by
  rcases st with ⟨mo⟩
  dsimp only at h
  subst h
  rfl

/-- C5 witness: the unloaded worker answering a concrete `ProcessImage`. -/
theorem c5_not_loaded_fails_fast_witness :
    handleProcessImage (fun i => Except.ok i) ⟨none⟩ "job-1" ⟨64, 64, []⟩ =
      (⟨none⟩, [WorkerReply.processingComplete "job-1" false none
        (some "Model not loaded")], 0) :=
  c5_not_loaded_fails_fast _ _ _ _ rfl

/-! ## C6: one-shot listener, no duplicate resolution -/

lemma foldl_deliver_unregistered (callId : String) (msgs : List WorkerMessageM)
    (c : Nat) : msgs.foldl (deliver callId) ⟨false, c⟩ = ⟨false, c⟩ := by
  induction msgs with
  | nil => rfl
  | cons m rest ih => simpa [deliver] using ih

lemma foldl_deliver_registered (callId : String) (msgs : List WorkerMessageM)
    (c : Nat) :
    msgs.foldl (deliver callId) ⟨true, c⟩ =
      if msgs.any (matchesMsg callId) then ⟨false, c + 1⟩ else ⟨true, c⟩ := by
  induction msgs with
  | nil => rfl
  | cons m rest ih =>
      by_cases hm : matchesMsg callId m = true
      · simp [List.foldl_cons, deliver, hm, foldl_deliver_unregistered,
          List.any_cons]
      · simp [List.foldl_cons, deliver, hm, ih, List.any_cons]

/-- C6: the per-call listener registered by the adapter's `processImage`
invokes the caller's `onComplete` at most once: delivering any stream of
worker messages to a freshly registered listener produces exactly one
completion as soon as a matching `ProcessingComplete` appears — after which
the listener is deregistered — and no completion (with the listener left
registered, untouched) when no message matches. -/
theorem c6_one_shot_listener (callId : String) (msgs : List WorkerMessageM) :
    (deliverAll callId msgs).completions ≤ 1 ∧
    ((∃ m ∈ msgs, matchesMsg callId m = true) →
      (deliverAll callId msgs).completions = 1 ∧
      (deliverAll callId msgs).registered = false) ∧
    ((∀ m ∈ msgs, matchesMsg callId m = false) →
      deliverAll callId msgs = ⟨true, 0⟩) := by
  have hfold := foldl_deliver_registered callId msgs 0
  refine ⟨?_, ?_, ?_⟩
  · by_cases hany : msgs.any (matchesMsg callId) = true
    · rw [deliverAll, hfold, if_pos hany]
    · rw [deliverAll, hfold, if_neg hany]
      exact Nat.zero_le 1
  · rintro ⟨m, hmem, hm⟩
    have hany : msgs.any (matchesMsg callId) = true :=
      List.any_eq_true.mpr ⟨m, hmem, hm⟩
    rw [deliverAll, hfold, if_pos hany]
    exact ⟨rfl, rfl⟩
  · intro hall
    have hany : ¬msgs.any (matchesMsg callId) = true := by
      rw [List.any_eq_true]
      rintro ⟨m, hmem, hm⟩
      simp [hall m hmem] at hm
    rw [deliverAll, hfold, if_neg hany]

/-- C6 witness: two duplicate matching `ProcessingComplete` messages for the
same request id resolve the callback exactly once and leave no listener. -/
theorem c6_one_shot_listener_witness :
    (deliverAll "x" [⟨"PROCESSING_COMPLETE", true, some "x", none⟩,
      ⟨"PROCESSING_COMPLETE", true, some "x", none⟩]).completions = 1 ∧
    (deliverAll "x" [⟨"PROCESSING_COMPLETE", true, some "x", none⟩,
      ⟨"PROCESSING_COMPLETE", true, some "x", none⟩]).registered = false :=
  (c6_one_shot_listener "x" [⟨"PROCESSING_COMPLETE", true, some "x", none⟩,
      ⟨"PROCESSING_COMPLETE", true, some "x", none⟩]).2.1
    ⟨⟨"PROCESSING_COMPLETE", true, some "x", none⟩, by decide, by decide⟩

/-! ## C8: bounded, atomic adds to the image list -/

lemma mkImageEntries_length (newId : Nat → String) (files : List FileM)
    (i : Nat) (l : List ImageFileM)
    (h : mkImageEntries newId files i = Except.ok l) :
    l.length = files.length := by
  induction files generalizing i l with
  | nil =>
      simp only [mkImageEntries] at h
      cases h
      rfl
  | cons f rest ih =>
      simp only [mkImageEntries] at h
      cases hv : validateImageType f.ftype with
      | error e => rw [hv] at h; cases h
      | ok u =>
          rw [hv] at h
          cases hr : mkImageEntries newId rest (i + 1) with
          | error e => rw [hr] at h; cases h
          | ok l' =>
              rw [hr] at h
              cases h
              simp [ih (i + 1) l' hr]

/-- C8: the image list never exceeds `MAX_FILES` (50) entries, and adds are
atomic: when the existing count plus the dropped count exceeds 50, `onDrop`
reports an error and leaves the list exactly as it was; and any list within
the bound stays within the bound after any drop. -/
theorem c8_bounded_atomic_add (newId : Nat → String) (images : List ImageFileM)
    (accepted : List FileM) (rejected : List String) :
    (rejected = [] → MAX_FILES < images.length + accepted.length →
      onDrop newId images accepted rejected =
        (images, some "Maximum 50 images allowed")) ∧
    (images.length ≤ MAX_FILES →
      (onDrop newId images accepted rejected).1.length ≤ MAX_FILES) := by
  constructor
  · intro hrej hover
    subst hrej
    simp only [onDrop]
    rw [if_neg (by simp : ¬0 < ([] : List String).length), if_pos hover]
  · intro hlen
    rw [onDrop]
    by_cases h1 : 0 < rejected.length
    · rw [if_pos h1]
      exact hlen
    · rw [if_neg h1]
      by_cases h2 : MAX_FILES < images.length + accepted.length
      · rw [if_pos h2]
        exact hlen
      · rw [if_neg h2]
        cases hmk : mkImageEntries newId accepted 0 with
        | error e => exact hlen
        | ok newImages =>
            have := mkImageEntries_length newId accepted 0 newImages hmk
            simp only [List.length_append, this]
            omega

/-- C8 witness: dropping one more file onto a full 50-entry list reports the
error and leaves the list untouched. -/
theorem c8_bounded_atomic_add_witness :
    onDrop (fun _ => "u")
      (List.replicate 50 ⟨"id0", ⟨"a.png", "image/png"⟩, "blob:a.png", none,
        JobStatus.idle⟩)
      [⟨"b.png", "image/png"⟩] [] =
      (List.replicate 50 ⟨"id0", ⟨"a.png", "image/png"⟩, "blob:a.png", none,
        JobStatus.idle⟩, some "Maximum 50 images allowed") :=
  (c8_bounded_atomic_add (fun _ => "u")
      (List.replicate 50 ⟨"id0", ⟨"a.png", "image/png"⟩, "blob:a.png", none,
        JobStatus.idle⟩)
      [⟨"b.png", "image/png"⟩] []).1 rfl (by simp [MAX_FILES])

/-! ## C9: encoding never fails on a bad MIME type -/

/-- C9: `imageDataToDataURL` never propagates an error for an unsupported or
missing MIME type: it always returns a data URL, using the requested type
when it is in the supported list and silently falling back to `image/png`
when the type is missing, empty, or unsupported. -/
theorem c9_mime_fallback (t : Option String) :
    (imageDataToDataURL t).isOk = true ∧
    (t = none → imageDataToDataURL t = Except.ok "image/png") ∧
    (∀ s, t = some s → SUPPORTED_TYPES.contains s = false →
      imageDataToDataURL t = Except.ok "image/png") ∧
    (∀ s, t = some s → SUPPORTED_TYPES.contains s = true →
      imageDataToDataURL t = Except.ok s) := by
  have hmain : ∀ s : String, SUPPORTED_TYPES.contains s = true →
      imageDataToDataURL (some s) = Except.ok s := by
    intro s hs
    have hmem : s ∈ SUPPORTED_TYPES := by simpa using hs
    have hne : ¬s = "" := by
      intro he
      subst he
      simp [SUPPORTED_TYPES] at hmem
    simp [imageDataToDataURL, validateImageType, hne, hmem]
  have hbadcase : ∀ s : String, SUPPORTED_TYPES.contains s = false →
      imageDataToDataURL (some s) = Except.ok "image/png" := by
    intro s hs
    have hmem : s ∉ SUPPORTED_TYPES := by simpa using hs
    by_cases hne : s = ""
    · subst hne
      rfl
    · simp [imageDataToDataURL, validateImageType, hne, hmem]
  cases t with
  | none =>
      refine ⟨rfl, ?_, ?_, ?_⟩
      · intro _
        rfl
      · intro s hs
        cases hs
      · intro s hs
        cases hs
  | some s =>
      refine ⟨?_, ?_, ?_, ?_⟩
      · cases hC : SUPPORTED_TYPES.contains s
        · rw [hbadcase s hC]
          rfl
        · rw [hmain s hC]
          rfl
      · intro h
        cases h
      · intro s' hs' hC
        cases hs'
        exact hbadcase _ hC
      · intro s' hs' hC
        cases hs'
        exact hmain _ hC

/-- C9 witness: the unsupported type `image/gif` silently encodes as PNG. -/
theorem c9_mime_fallback_witness :
    imageDataToDataURL (some "image/gif") = Except.ok "image/png" :=
  (c9_mime_fallback (some "image/gif")).2.2.1 "image/gif" rfl (by decide)

/-! ## C10: removing one image -/

lemma filter_ne_eq_self (images : List ImageFileM) (targetId : String)
    (h : ∀ img ∈ images, img.id ≠ targetId) :
    images.filter (fun img => img.id ≠ targetId) = images := by
  induction images with
  | nil => rfl
  | cons a t ih =>
      have ha : a.id ≠ targetId := h a (by simp)
      have ht : ∀ x ∈ t, x.id ≠ targetId :=
        fun x hx => h x (List.mem_cons_of_mem a hx)
      rw [List.filter_cons, if_pos (by simp [ha] : decide (a.id ≠ targetId) = true),
        ih ht]

lemma find?_id_eq_none (images : List ImageFileM) (targetId : String)
    (h : ∀ img ∈ images, img.id ≠ targetId) :
    images.find? (fun img => img.id = targetId) = none := by
  induction images with
  | nil => rfl
  | cons a t ih =>
      have ha : ¬(a.id = targetId) := h a (by simp)
      have ht : ∀ x ∈ t, x.id ≠ targetId :=
        fun x hx => h x (List.mem_cons_of_mem a hx)
      simp [List.find?, ha, ih ht]

lemma find?_id_middle (pre post : List ImageFileM) (job : ImageFileM)
    (targetId : String) (hpre : ∀ img ∈ pre, img.id ≠ targetId)
    (hj : job.id = targetId) :
    (pre ++ job :: post).find? (fun img => img.id = targetId) = some job := by
  induction pre with
  | nil => simp [List.find?, hj]
  | cons a t ih =>
      have ha : ¬(a.id = targetId) := hpre a (by simp)
      have hd : decide (a.id = targetId) = false := by simp [ha]
      have ht : ∀ x ∈ t, x.id ≠ targetId :=
        fun x hx => hpre x (List.mem_cons_of_mem a hx)
      simp only [List.cons_append, List.find?, hd]
      exact ih ht

/-- C10: `removeImage(id)` removes exactly the entry whose identifier equals
`id`, revoking its preview URL and (when present) its processed URL, and
leaves every other entry untouched in order; when no entry has that id the
list is returned unchanged and nothing is revoked. -/
theorem c10_remove_exact (images : List ImageFileM) (targetId : String) :
    ((∀ img ∈ images, img.id ≠ targetId) →
      removeImage images targetId = (images, [])) ∧
    (∀ pre job post, images = pre ++ job :: post → job.id = targetId →
      (∀ img ∈ pre, img.id ≠ targetId) →
      (∀ img ∈ post, img.id ≠ targetId) →
      removeImage images targetId =
        (pre ++ post,
         job.preview ::
           (match job.processed with | some p => [p] | none => []))) := by
  constructor
  · intro h
    simp only [removeImage, find?_id_eq_none images targetId h,
      filter_ne_eq_self images targetId h]
  · intro pre job post heq hj hpre hpost
    subst heq
    have h1 : (pre ++ job :: post).filter (fun img => img.id ≠ targetId) =
        pre ++ post := by
      have hp : (post.filter fun img => img.id ≠ targetId) = post :=
        filter_ne_eq_self post targetId hpost
      rw [List.filter_append, filter_ne_eq_self pre targetId hpre,
        List.filter_cons,
        if_neg (by simp [hj] : ¬decide (job.id ≠ targetId) = true), hp]
    simp only [removeImage, find?_id_middle pre post job targetId hpre hj, h1]

/-- C10 witness: removing the middle entry of a concrete 3-entry list
revokes its preview and processed URLs and keeps the neighbours in order. -/
theorem c10_remove_exact_witness :
    removeImage
      [⟨"a", ⟨"a.png", "image/png"⟩, "blob:a", none, JobStatus.done⟩,
       ⟨"b", ⟨"b.png", "image/png"⟩, "blob:b", some "proc-b", JobStatus.done⟩,
       ⟨"c", ⟨"c.png", "image/png"⟩, "blob:c", none, JobStatus.idle⟩] "b" =
      ([⟨"a", ⟨"a.png", "image/png"⟩, "blob:a", none, JobStatus.done⟩,
        ⟨"c", ⟨"c.png", "image/png"⟩, "blob:c", none, JobStatus.idle⟩],
       ["blob:b", "proc-b"]) :=
  (c10_remove_exact
      [⟨"a", ⟨"a.png", "image/png"⟩, "blob:a", none, JobStatus.done⟩,
       ⟨"b", ⟨"b.png", "image/png"⟩, "blob:b", some "proc-b", JobStatus.done⟩,
       ⟨"c", ⟨"c.png", "image/png"⟩, "blob:c", none, JobStatus.idle⟩] "b").2
    [⟨"a", ⟨"a.png", "image/png"⟩, "blob:a", none, JobStatus.done⟩]
    ⟨"b", ⟨"b.png", "image/png"⟩, "blob:b", some "proc-b", JobStatus.done⟩
    [⟨"c", ⟨"c.png", "image/png"⟩, "blob:c", none, JobStatus.idle⟩]
    rfl rfl (by decide) (by decide)
